import Mathlib

/-!
Shallow embedding of the mongo callback of rusty-blockparser
(src/callbacks/mongo.rs): the per-block output-resolution cache, the input
resolver with its persistent-store fallback, record assembly, and the
block-ingestion pipeline, together with theorems settling the specification
claims about them.
-/

namespace RustyBlockparser

/-- One lowercase hex digit for a nibble, as produced by hex formatting. -/
def hexDigit (n : Nat) : Char :=
  if n < 10 then Char.ofNat (48 + n) else Char.ofNat (87 + n)

/-- Two-digit lowercase hex rendering of one byte. -/
def byteToHex (b : Nat) : String :=
  String.mk [hexDigit (b / 16 % 16), hexDigit (b % 16)]

/-- `utils::arr_to_hex`: hex rendering of a byte array. -/
def arr_to_hex (bytes : List Nat) : String :=
  String.join (bytes.map byteToHex)

/-- `utils::arr_to_hex_swapped`: reversed-byte-order hex rendering, used for
all hashes (block hashes, transaction hashes, previous-output references). -/
def arr_to_hex_swapped (bytes : List Nat) : String :=
  arr_to_hex bytes.reverse

/-- The 64-character zero string the source compares against for the coinbase
sentinel and uses as the default address of an input. -/
def zeroHashStr : String :=
  "0000000000000000000000000000000000000000000000000000000000000000"

/-- Rust `u64 as i64` two's-complement reinterpretation. -/
def u64_as_i64 (n : Nat) : Int :=
  if n < 2 ^ 63 then (n : Int) else (n : Int) - 2 ^ 64

/-- Rust `u32 as i32` two's-complement reinterpretation. -/
def u32_as_i32 (n : Nat) : Int :=
  if n < 2 ^ 31 then (n : Int) else (n : Int) - 2 ^ 32

/-- Rust `usize as i32`: truncate to 32 bits, then reinterpret as `i32`. -/
def usize_as_i32 (n : Nat) : Int :=
  u32_as_i32 (n % 2 ^ 32)

/-- First-match association-list lookup: the observable semantics of both
`HashMap::get` (with newer inserts consed at the front) and bson
`Document::get` on the ordered key/value list. -/
def alistGet {κ α : Type} [DecidableEq κ] : List (κ × α) → κ → Option α
  | [], _ => none
  | (k, v) :: rest, key => if k = key then some v else alistGet rest key

/-- The bson values the callback stores and reads back. -/
inductive Bson where
  | int32 : Int → Bson
  | int64 : Int → Bson
  | str : String → Bson
  | arr : List Bson → Bson
  | doc : List (String × Bson) → Bson

/-- A bson document: an ordered list of key/value pairs. -/
abbrev Document := List (String × Bson)

/-- `Document::get`. -/
def Document.get (d : Document) (key : String) : Option Bson :=
  alistGet d key

/-- `Document::get_array`, successful case (`unwrap` panics on `none`). -/
def Document.get_array (d : Document) (key : String) : Option (List Bson) :=
  match d.get key with
  | some (.arr l) => some l
  | _ => none

/-- `Document::get_i64`, successful case (`unwrap` panics on `none`). -/
def Document.get_i64 (d : Document) (key : String) : Option Int :=
  match d.get key with
  | some (.int64 v) => some v
  | _ => none

/-- `Document::get_str`, successful case (`unwrap` panics on `none`). -/
def Document.get_str (d : Document) (key : String) : Option String :=
  match d.get key with
  | some (.str s) => some s
  | _ => none

/-- `Bson::as_document`. -/
def Bson.as_document : Bson → Option Document
  | .doc d => some d
  | _ => none

/-! ## Domain model (from `blockchain::proto`) -/

/-- The already-evaluated script information attached to an output:
an optionally recognized address and the script pattern description. -/
structure ScriptInfo where
  address : Option String
  pattern : String

/-- A previous-output reference: transaction id (byte hash) and output index
(`u32`). -/
structure TxOutpoint where
  txid : List Nat
  index : Nat

/-- A raw transaction input. -/
structure TxInput where
  outpoint : TxOutpoint
  script_sig : List Nat
  seq_no : Nat

/-- A raw transaction output: value (`u64`) and locking script. -/
structure TxOut where
  value : Nat
  script_pubkey : List Nat

/-- An output together with its evaluated script. -/
structure EvaluatedTxOut where
  script : ScriptInfo
  out : TxOut

/-- An evaluated transaction. -/
structure EvaluatedTx where
  version : Int
  locktime : Nat
  in_count : Nat
  out_count : Nat
  inputs : List TxInput
  outputs : List EvaluatedTxOut

/-- `Hashed<EvaluatedTx>`: a transaction together with its hash bytes. -/
structure HashedTx where
  hash : List Nat
  value : EvaluatedTx

/-- A block header (`BlockHeader`). -/
structure BlockHeader where
  version : Nat
  prev_hash : List Nat
  merkle_root : List Nat
  timestamp : Nat
  bits : Nat
  nonce : Nat

/-- `Hashed<BlockHeader>`. -/
structure HashedHeader where
  hash : List Nat
  value : BlockHeader

/-- A block: header, size, declared transaction count and transactions. -/
structure Block where
  size : Nat
  header : HashedHeader
  tx_count : Nat
  txs : List HashedTx

/-! ## Cache and store model -/

/-- The inner per-transaction map of the cache: output index (`i32`) to
(value as `i64`, address), i.e. `HashMap<i32, (i64, String)>`. -/
abbrev OutputMap := List (Int × (Int × String))

/-- The Per-Block Resolution Cache: transaction hash (reversed hex text) to
its output map, i.e. `HashMap<String, HashMap<i32, (i64, String)>>`. -/
abbrev TxMap := List (String × OutputMap)

/-- Events issued against the persistent store, in issue order. -/
inductive StoreEvent where
  | insertBlock : Document → StoreEvent
  | insertManyTxs : List Document → StoreEvent
  | findOne : String → StoreEvent

/-- `true` for the write operations, `false` for the read (`find_one`). -/
def StoreEvent.isWrite : StoreEvent → Bool
  | .findOne _ => false
  | .insertBlock _ => true
  | .insertManyTxs _ => true

/-- The behaviour of the persistent store during a run: each operation may
fail with a connectivity error (`Except.error`). -/
structure FStore where
  insertOne : Document → Except String Unit
  insertMany : List Document → Except String Unit
  findOne : String → Except String (Option Document)

/-- Outcome of a fallible step: normal value, error returned to the caller
(Rust `Err` propagated with `?`), or a panic (Rust `unwrap` failure). -/
inductive RunOutcome (α : Type) where
  | ok : α → RunOutcome α
  | err : String → RunOutcome α
  | panicked : String → RunOutcome α

/-- Result of resolving one input: the produced document (or a panic), the
store events issued, and the diagnostics printed. -/
structure InputResolution where
  res : RunOutcome Document
  events : List StoreEvent
  diags : List String

/-! ## Record assembly and resolution (from `callbacks/mongo.rs`) -/

/-- Rust `.iter().enumerate()` starting at `n`. -/
def enumFrom {α : Type} : Nat → List α → List (Nat × α)
  | _, [] => []
  | n, a :: rest => (n, a) :: enumFrom (n + 1) rest

/-- The address an output contributes: the recognized address, or the empty
string when the script evaluator supplied none. -/
def scriptAddr (o : EvaluatedTxOut) : String :=
  match o.script.address with
  | some a => a
  | none => ""

/-- `EvaluatedTxOut::as_doc`: the persisted output document together with the
diagnostics printed while building it. -/
def EvaluatedTxOut.as_doc (o : EvaluatedTxOut) (txid : String) (index : Int) :
    Document × List String :=
  let addrDiag : String × List String :=
    match o.script.address with
    | some address => (address, [])
    | none =>
      ("", ["Unable to evaluate address for utxo in txid: " ++ txid ++
            " (" ++ o.script.pattern ++ ")"])
  ([("txHash", .str txid),
    ("indexOut", .int32 index),
    ("value", .int64 (u64_as_i64 o.out.value)),
    ("scriptPubKey", .str (arr_to_hex o.out.script_pubkey)),
    ("address", .str addrDiag.1)], addrDiag.2)

/-- `EvaluatedTxOut::as_map`: the singleton map staged into the Per-Block
Resolution Cache for this output. -/
def EvaluatedTxOut.as_map (o : EvaluatedTxOut) (index : Int) : OutputMap :=
  let address : String :=
    match o.script.address with
    | some a => a
    | none => ""
  [(index, (u64_as_i64 o.out.value, address))]

/-- The `output_map.extend(output.as_map(i as i32))` fold inside
`as_map_tuple`: `HashMap::extend` lets new entries shadow older ones, which
for first-match lookup means prepending them. -/
def outMapFold : List (Nat × EvaluatedTxOut) → OutputMap → OutputMap
  | [], m => m
  | (i, o) :: rest, m => outMapFold rest (o.as_map (usize_as_i32 i) ++ m)

/-- `Hashed<EvaluatedTx>::as_map_tuple`: the cache entry contributed by one
transaction — its reversed-hex hash and its output map. -/
def HashedTx.as_map_tuple (tx : HashedTx) : String × OutputMap :=
  (arr_to_hex_swapped tx.hash, outMapFold (enumFrom 0 tx.value.outputs) [])

/-- The document `TxInput::as_doc` assembles at the end, for given resolved
value and address. -/
def TxInput.inputDoc (inp : TxInput) (txid : String) (index : Int)
    (value : Int) (address : String) : Document :=
  [("txHash", .str txid),
   ("hashPrevOut", .str (arr_to_hex_swapped inp.outpoint.txid)),
   ("indexPrevOut", .int64 inp.outpoint.index),
   ("indexIn", .int32 index),
   ("scriptSig", .str (arr_to_hex inp.script_sig)),
   ("sequenceNumber", .int64 inp.seq_no),
   ("value", .int64 value),
   ("address", .str address)]

/-- The unchecked extraction of the referenced output from a stored
transaction document in the store-fallback path:
`get_array("txOutputs").unwrap()[index].as_document().unwrap()`, then
`get_i64("value").unwrap()` and `get_str("address").unwrap()`. `none` means
one of these operations panics. -/
def extractPrevOutput (prev : Document) (idx : Nat) : Option (Int × String) :=
  match prev.get_array "txOutputs" with
  | none => none
  | some outsArr =>
    match outsArr.get? idx with
    | none => none
    | some b =>
      match b.as_document with
      | none => none
      | some txouts =>
        match txouts.get_i64 "value" with
        | none => none
        | some v =>
          match txouts.get_str "address" with
          | none => none
          | some a => some (v, a)

/-- `TxInput::as_doc`: resolve one input against the cache and the store and
assemble its document. `value` starts at 0 and `address` at the zero-hash
text; the sentinel check, the cache lookup, the store fallback and the
diagnostic mirror the source control flow. -/
def TxInput.as_doc (inp : TxInput) (txid : String) (index : Int)
    (store : FStore) (tx_map : TxMap) : InputResolution :=
  let hash_prev_out := arr_to_hex_swapped inp.outpoint.txid
  let index_prev_out := inp.outpoint.index
  if hash_prev_out ≠ zeroHashStr then
    match alistGet tx_map hash_prev_out with
    | some output_map =>
      match alistGet output_map (u32_as_i32 index_prev_out) with
      | some (new_value, new_address) =>
        { res := .ok (inp.inputDoc txid index new_value new_address),
          events := [], diags := [] }
      | none =>
        match store.findOne hash_prev_out with
        | .error e =>
          { res := .panicked e, events := [.findOne hash_prev_out], diags := [] }
        | .ok (some prev_out_tx) =>
          match extractPrevOutput prev_out_tx index_prev_out with
          | some (value, address) =>
            { res := .ok (inp.inputDoc txid index value address),
              events := [.findOne hash_prev_out], diags := [] }
          | none =>
            { res := .panicked "unwrap failed on stored transaction document",
              events := [.findOne hash_prev_out], diags := [] }
        | .ok none =>
          { res := .ok (inp.inputDoc txid index 0 zeroHashStr),
            events := [.findOne hash_prev_out],
            diags := ["No Transaction for the Input found for TX: " ++ txid ++
                      " with PrevOut: " ++ hash_prev_out] }
    | none =>
      { res := .ok (inp.inputDoc txid index 0 zeroHashStr),
        events := [], diags := [] }
  else
    { res := .ok (inp.inputDoc txid index 0 zeroHashStr),
      events := [], diags := [] }

/-- The input loop of `Hashed<EvaluatedTx>::as_doc`: resolve the enumerated
inputs in order, stopping at the first panic. -/
def resolveInputs (txid : String) (store : FStore) (tx_map : TxMap) :
    List (Nat × TxInput) → RunOutcome (List Document) × List StoreEvent × List String
  | [] => (.ok [], [], [])
  | (i, inp) :: rest =>
    let r := inp.as_doc txid (usize_as_i32 i) store tx_map
    match r.res with
    | .ok d =>
      match resolveInputs txid store tx_map rest with
      | (.ok ds, evs, dgs) => (.ok (d :: ds), r.events ++ evs, r.diags ++ dgs)
      | (.err m, evs, dgs) => (.err m, r.events ++ evs, r.diags ++ dgs)
      | (.panicked m, evs, dgs) => (.panicked m, r.events ++ evs, r.diags ++ dgs)
    | .err m => (.err m, r.events, r.diags)
    | .panicked m => (.panicked m, r.events, r.diags)

/-- `Hashed<EvaluatedTx>::as_doc`: build the output documents (collecting
their diagnostics), resolve the inputs, and assemble the transaction
document. -/
def HashedTx.as_doc (tx : HashedTx) (block_hash : String) (store : FStore)
    (tx_map : TxMap) : RunOutcome Document × List StoreEvent × List String :=
  let txid_str := arr_to_hex_swapped tx.hash
  let outputPairs := (enumFrom 0 tx.value.outputs).map
    (fun p => p.2.as_doc txid_str (usize_as_i32 p.1))
  let outputs := outputPairs.map Prod.fst
  let outDiags := (outputPairs.map Prod.snd).flatten
  match resolveInputs txid_str store tx_map (enumFrom 0 tx.value.inputs) with
  | (.ok inputs, evs, dgs) =>
    (.ok [("txHash", .str txid_str),
          ("blockHash", .str block_hash),
          ("version", .int64 tx.value.version),
          ("lockTime", .int64 tx.value.locktime),
          ("inputCount", .int64 tx.value.in_count),
          ("txInputs", .arr (inputs.map .doc)),
          ("outputCount", .int64 tx.value.out_count),
          ("txOutputs", .arr (outputs.map .doc))],
     evs, outDiags ++ dgs)
  | (.err m, evs, dgs) => (.err m, evs, outDiags ++ dgs)
  | (.panicked m, evs, dgs) => (.panicked m, evs, outDiags ++ dgs)

/-- `Block::as_doc`. -/
def Block.as_doc (b : Block) (block_height : Nat) : Document :=
  [("hash", .str (arr_to_hex_swapped b.header.hash)),
   ("blockHeight", .int64 block_height),
   ("version", .int64 b.header.value.version),
   ("size", .int64 b.size),
   ("previousHash", .str (arr_to_hex_swapped b.header.value.prev_hash)),
   ("merkleRootHash", .str (arr_to_hex_swapped b.header.value.merkle_root)),
   ("timestamp", .int64 b.header.value.timestamp),
   ("nBits", .int64 b.header.value.bits),
   ("txCount", .int64 b.tx_count),
   ("nNonce", .int64 b.header.value.nonce)]

/-- The transaction loop of `Mongo::on_block`: each transaction is turned
into its document against the cache built so far, then its own cache entry is
inserted (consed, shadowing older entries, like `HashMap::insert`). -/
def processTxs (store : FStore) (block_hash : String) :
    List HashedTx → TxMap → RunOutcome (List Document) × List StoreEvent × List String
  | [], _ => (.ok [], [], [])
  | tx :: rest, tx_map =>
    match tx.as_doc block_hash store tx_map with
    | (.ok d, evs, dgs) =>
      match processTxs store block_hash rest (tx.as_map_tuple :: tx_map) with
      | (.ok ds, evs2, dgs2) => (.ok (d :: ds), evs ++ evs2, dgs ++ dgs2)
      | (.err m, evs2, dgs2) => (.err m, evs ++ evs2, dgs ++ dgs2)
      | (.panicked m, evs2, dgs2) => (.panicked m, evs ++ evs2, dgs ++ dgs2)
    | (.err m, evs, dgs) => (.err m, evs, dgs)
    | (.panicked m, evs, dgs) => (.panicked m, evs, dgs)

/-- The Per-Block Resolution Cache contents seen by the transaction at
position `j`: the entries of the first `j` transactions, newest first —
exactly what the `processTxs` loop has accumulated when it reaches `j`. -/
def buildTxMap (txs : List HashedTx) : TxMap :=
  (txs.map HashedTx.as_map_tuple).reverse

/-- The mutable callback state of `Mongo`. -/
structure MongoState where
  start_height : Nat
  end_height : Nat
  tx_count : Nat
deriving DecidableEq

/-- `Mongo::on_start`: record the starting height and probe the store. -/
def Mongo.on_start (probe : Except String Unit) (st : MongoState)
    (block_height : Nat) : Except String MongoState :=
  let st := { st with start_height := block_height }
  match probe with
  | .error e => .error e
  | .ok _ => .ok st

/-- `Mongo::on_block`: insert the block document, process the transactions
against a fresh cache, bulk-insert their documents, and bump the counter.
Returns the outcome, the store events in issue order, and the diagnostics. -/
def Mongo.on_block (store : FStore) (st : MongoState) (block : Block)
    (block_height : Nat) :
    RunOutcome MongoState × List StoreEvent × List String :=
  match store.insertOne (block.as_doc block_height) with
  | .error e => (.err e, [.insertBlock (block.as_doc block_height)], [])
  | .ok _ =>
    let block_hash := arr_to_hex_swapped block.header.hash
    match processTxs store block_hash block.txs [] with
    | (.ok transactions, evs, dgs) =>
      match store.insertMany transactions with
      | .error e =>
        (.err e,
         .insertBlock (block.as_doc block_height) :: evs ++ [.insertManyTxs transactions],
         dgs)
      | .ok _ =>
        (.ok { st with tx_count := st.tx_count + block.tx_count },
         .insertBlock (block.as_doc block_height) :: evs ++ [.insertManyTxs transactions],
         dgs)
    | (.err m, evs, dgs) =>
      (.err m, .insertBlock (block.as_doc block_height) :: evs, dgs)
    | (.panicked m, evs, dgs) =>
      (.panicked m, .insertBlock (block.as_doc block_height) :: evs, dgs)

/-- The final summary emitted by `Mongo::on_complete`: the height reported as
the block total, and the accumulated transaction counter. -/
structure Summary where
  blocks : Nat
  transactions : Nat
deriving DecidableEq

/-- `Mongo::on_complete`: record the end height and emit the summary. -/
def Mongo.on_complete (st : MongoState) (block_height : Nat) :
    MongoState × Summary :=
  let st := { st with end_height := block_height }
  (st, { blocks := st.end_height, transactions := st.tx_count })

/-- The ordering property claimed for the per-block store traffic: every
write is issued only after all transaction-processing reads (no read follows
a write). -/
def noQueryAfterWrite : List StoreEvent → Bool
  | [] => true
  | e :: rest =>
    (if e.isWrite then rest.all (fun x => x.isWrite) else true) &&
      noQueryAfterWrite rest

/-- A store on which every operation succeeds and no transaction record is
ever found. -/
def okStore : FStore where
  insertOne := fun _ => .ok ()
  insertMany := fun _ => .ok ()
  findOne := fun _ => .ok none

/-! ## Helper lemmas -/

theorem alistGet_eq_of_mem_nodup {κ α : Type} [DecidableEq κ] :
    ∀ {l : List (κ × α)}, (l.map Prod.fst).Nodup → ∀ {p : κ × α}, p ∈ l →
      alistGet l p.1 = some p.2 := by
  intro l
  induction l with
  | nil => intro _ p hp; cases hp
  | cons q rest ih =>
    intro hnd p hp
    simp only [List.map_cons, List.nodup_cons] at hnd
    rcases List.mem_cons.mp hp with rfl | hp
    · simp [alistGet]
    · have hne : q.1 ≠ p.1 := by
        intro h
        exact hnd.1 (h ▸ List.mem_map_of_mem Prod.fst hp)

      simp only [alistGet, if_neg hne]
      exact ih hnd.2 hp

theorem enumFrom_mem_bounds {α : Type} :
    ∀ (l : List α) (n : Nat) (p : Nat × α), p ∈ enumFrom n l →
      n ≤ p.1 ∧ p.1 < n + l.length := by
  intro l
  induction l with
  | nil => intro n p hp; cases hp
  | cons a rest ih =>
    intro n p hp
    rcases List.mem_cons.mp hp with rfl | hp
    · simp
    · have := ih (n + 1) p hp
      simp only [List.length_cons]
      omega

theorem usize_as_i32_of_lt {n : Nat} (h : n < 2 ^ 31) :
    usize_as_i32 n = (n : Int) := by
  unfold usize_as_i32 u32_as_i32
  rw [Nat.mod_eq_of_lt (by omega), if_pos h]

theorem u32_as_i32_of_lt {n : Nat} (h : n < 2 ^ 31) :
    u32_as_i32 n = (n : Int) := by
  unfold u32_as_i32
  rw [if_pos h]

theorem as_map_eq (o : EvaluatedTxOut) (i : Int) :
    o.as_map i = [(i, (u64_as_i64 o.out.value, scriptAddr o))] := by
  cases h : o.script.address <;> simp [EvaluatedTxOut.as_map, scriptAddr, h]

theorem alistGet_outMapFold_of_ne :
    ∀ (l : List (Nat × EvaluatedTxOut)) (m : OutputMap) (k : Int),
      (∀ p ∈ l, usize_as_i32 p.1 ≠ k) →
      alistGet (outMapFold l m) k = alistGet m k := by
  intro l
  induction l with
  | nil => intro m k _; rfl
  | cons q rest ih =>
    intro m k hk
    obtain ⟨i, o⟩ := q
    simp only [outMapFold]
    rw [ih _ k (fun p hp => hk p (List.mem_cons_of_mem _ hp))]
    have hne : usize_as_i32 i ≠ k := hk (i, o) (List.mem_cons_self _ _)
    rw [as_map_eq]
    simp [alistGet, if_neg hne]

theorem alistGet_outMapFold_get :
    ∀ (l : List EvaluatedTxOut) (n : Nat) (m : OutputMap) (idx : Nat),
      n + l.length ≤ 2 ^ 31 → ∀ (hidx : idx < l.length),
      alistGet (outMapFold (enumFrom n l) m) (((n + idx : Nat) : Int)) =
        some (u64_as_i64 (l.get ⟨idx, hidx⟩).out.value,
              scriptAddr (l.get ⟨idx, hidx⟩)) := by
  intro l
  induction l with
  | nil => intro n m idx _ hidx; cases hidx
  | cons o rest ih =>
    intro n m idx hbound hidx
    simp only [enumFrom, outMapFold]
    cases idx with
    | zero =>
      rw [alistGet_outMapFold_of_ne]
      · have hn : n < 2 ^ 31 := by
          simp only [List.length_cons] at hbound; omega
        rw [as_map_eq]
        simp only [List.cons_append, List.nil_append, alistGet,
          usize_as_i32_of_lt hn, Nat.add_zero]
        simp [List.get]
      · intro p hp
        have hb := enumFrom_mem_bounds rest (n + 1) p hp
        have hlt : p.1 < 2 ^ 31 := by
          simp only [List.length_cons] at hbound; omega
        rw [usize_as_i32_of_lt hlt]
        intro hEq
        have : p.1 = n + 0 := by exact_mod_cast hEq
        omega
    | succ k =>
      have hb2 : (n + 1) + rest.length ≤ 2 ^ 31 := by
        simp only [List.length_cons] at hbound; omega
      have hk : k < rest.length := by
        simp only [List.length_cons] at hidx; omega
      have := ih (n + 1) (o.as_map (usize_as_i32 n) ++ m) k hb2 hk
      have hkey : ((n + (k + 1) : Nat) : Int) = (((n + 1) + k : Nat) : Int) := by
        congr 1; omega
      rw [hkey]
      simpa using this

theorem mem_take_of_lt {α : Type} (l : List α) (i j : Nat) (hi : i < l.length)
    (hij : i < j) : l.get ⟨i, hi⟩ ∈ l.take j := by
  have h := List.getElem_take' l hi hij
  simp only [List.get_eq_getElem]
  rw [h]
  exact List.getElem_mem _

theorem tmGet_buildTxMap (txs : List HashedTx) (j i : Nat) (hi : i < txs.length)
    (hij : i < j)
    (hnd : (txs.map (fun t => arr_to_hex_swapped t.hash)).Nodup) :
    alistGet (buildTxMap (txs.take j))
        (arr_to_hex_swapped (txs.get ⟨i, hi⟩).hash) =
      some (txs.get ⟨i, hi⟩).as_map_tuple.2 := by
  have hmem : txs.get ⟨i, hi⟩ ∈ txs.take j := mem_take_of_lt txs i j hi hij
  have hmem2 : (txs.get ⟨i, hi⟩).as_map_tuple ∈ buildTxMap (txs.take j) := by
    unfold buildTxMap
    rw [List.mem_reverse]
    exact List.mem_map_of_mem _ hmem
  have hkeys : ((buildTxMap (txs.take j)).map Prod.fst).Nodup := by
    unfold buildTxMap
    rw [List.map_reverse, List.nodup_reverse, List.map_map]
    have heq : (Prod.fst ∘ HashedTx.as_map_tuple) =
        fun t => arr_to_hex_swapped t.hash := by
      funext t; rfl
    rw [heq, List.map_take]
    exact hnd.sublist (List.take_sublist j (txs.map fun t => arr_to_hex_swapped t.hash))
  have h := alistGet_eq_of_mem_nodup hkeys hmem2
  simpa [HashedTx.as_map_tuple] using h

theorem as_doc_events_readonly (inp : TxInput) (txid : String) (i : Int)
    (store : FStore) (m : TxMap) :
    ∀ e ∈ (inp.as_doc txid i store m).events, e.isWrite = false := by
  intro e he
  simp only [TxInput.as_doc] at he
  split at he
  · split at he
    · split at he
      · simp at he
      · split at he
        · simp at he; subst he; rfl
        · split at he
          · simp at he; subst he; rfl
          · simp at he; subst he; rfl
        · simp at he; subst he; rfl
    · simp at he
  · simp at he

theorem as_doc_ok_of_findOne_none (inp : TxInput) (txid : String) (i : Int)
    (store : FStore) (m : TxMap) (hfo : ∀ h, store.findOne h = .ok none) :
    ∃ d, (inp.as_doc txid i store m).res = .ok d := by
  simp only [TxInput.as_doc]
  split
  · split
    · split
      · exact ⟨_, rfl⟩
      · rw [hfo]
        exact ⟨_, rfl⟩
    · exact ⟨_, rfl⟩
  · exact ⟨_, rfl⟩

theorem resolveInputs_events_readonly (txid : String) (store : FStore)
    (m : TxMap) :
    ∀ (l : List (Nat × TxInput)) e,
      e ∈ (resolveInputs txid store m l).2.1 → e.isWrite = false := by
  intro l
  induction l with
  | nil => intro e he; cases he
  | cons p rest ih =>
    intro e he
    obtain ⟨i, inp⟩ := p
    simp only [resolveInputs] at he
    split at he
    · split at he
      all_goals
        rename_i heq
        simp only at he
        rcases List.mem_append.mp he with h | h
        · exact as_doc_events_readonly inp txid (usize_as_i32 i) store m e h
        · rw [heq] at ih; exact ih e h
    all_goals
      simp only at he
      exact as_doc_events_readonly inp txid (usize_as_i32 i) store m e he

theorem resolveInputs_ok_of_findOne_none (txid : String) (store : FStore)
    (m : TxMap) (hfo : ∀ h, store.findOne h = .ok none) :
    ∀ (l : List (Nat × TxInput)),
      ∃ ds, (resolveInputs txid store m l).1 = .ok ds := by
  intro l
  induction l with
  | nil => exact ⟨[], rfl⟩
  | cons p rest ih =>
    obtain ⟨i, inp⟩ := p
    obtain ⟨d, hd⟩ := as_doc_ok_of_findOne_none inp txid (usize_as_i32 i) store m hfo
    obtain ⟨ds, hds⟩ := ih
    simp only [resolveInputs]
    split
    · split
      · exact ⟨_, rfl⟩
      · rename_i heq; rw [heq] at hds; simp at hds
      · rename_i heq; rw [heq] at hds; simp at hds
    · rename_i heq; rw [heq] at hd; simp at hd
    · rename_i heq; rw [heq] at hd; simp at hd

theorem txAsDoc_events_readonly (tx : HashedTx) (bh : String) (store : FStore)
    (m : TxMap) :
    ∀ e ∈ (tx.as_doc bh store m).2.1, e.isWrite = false := by
  intro e he
  simp only [HashedTx.as_doc] at he
  split at he
  all_goals
    rename_i heq
    simp only at he
    have := resolveInputs_events_readonly (arr_to_hex_swapped tx.hash) store m
      (enumFrom 0 tx.value.inputs) e
    rw [heq] at this
    exact this he

theorem txAsDoc_ok_of_findOne_none (tx : HashedTx) (bh : String)
    (store : FStore) (m : TxMap) (hfo : ∀ h, store.findOne h = .ok none) :
    ∃ d, (tx.as_doc bh store m).1 = .ok d := by
  obtain ⟨ds, hds⟩ := resolveInputs_ok_of_findOne_none
    (arr_to_hex_swapped tx.hash) store m hfo (enumFrom 0 tx.value.inputs)
  simp only [HashedTx.as_doc]
  split
  · exact ⟨_, rfl⟩
  · rename_i heq; rw [heq] at hds; simp at hds
  · rename_i heq; rw [heq] at hds; simp at hds

theorem processTxs_events_readonly (store : FStore) (bh : String) :
    ∀ (txs : List HashedTx) (m : TxMap) e,
      e ∈ (processTxs store bh txs m).2.1 → e.isWrite = false := by
  intro txs
  induction txs with
  | nil => intro m e he; cases he
  | cons tx rest ih =>
    intro m e he
    simp only [processTxs] at he
    split at he
    · rename_i heq1
      split at he
      all_goals
        rename_i heq2
        simp only at he
        rcases List.mem_append.mp he with h | h
        · have := txAsDoc_events_readonly tx bh store m e
          rw [heq1] at this
          exact this h
        · have := ih (tx.as_map_tuple :: m) e
          rw [heq2] at this
          exact this h
    all_goals
      rename_i heq1
      simp only at he
      have := txAsDoc_events_readonly tx bh store m e
      rw [heq1] at this
      exact this he

theorem processTxs_ok_of_findOne_none (store : FStore) (bh : String)
    (hfo : ∀ h, store.findOne h = .ok none) :
    ∀ (txs : List HashedTx) (m : TxMap),
      ∃ ds, (processTxs store bh txs m).1 = .ok ds := by
  intro txs
  induction txs with
  | nil => intro m; exact ⟨[], rfl⟩
  | cons tx rest ih =>
    intro m
    obtain ⟨d, hd⟩ := txAsDoc_ok_of_findOne_none tx bh store m hfo
    obtain ⟨ds, hds⟩ := ih (tx.as_map_tuple :: m)
    simp only [processTxs]
    split
    · split
      · exact ⟨_, rfl⟩
      · rename_i heq; rw [heq] at hds; simp at hds
      · rename_i heq; rw [heq] at hds; simp at hds
    · rename_i heq; rw [heq] at hd; simp at hd
    · rename_i heq; rw [heq] at hd; simp at hd

theorem on_block_ok_inv (store : FStore) (st : MongoState) (block : Block)
    (h : Nat) (st' : MongoState)
    (hok : (Mongo.on_block store st block h).1 = .ok st') :
    st' = { st with tx_count := st.tx_count + block.tx_count } := by
  simp only [Mongo.on_block] at hok
  split at hok
  · simp at hok
  · split at hok
    · split at hok
      · simp at hok
      · simp only at hok
        injection hok with hv
        exact hv.symm
    · simp at hok
    · simp at hok

theorem on_block_trace_shape (store : FStore) (st : MongoState) (block : Block)
    (h : Nat) (st' : MongoState)
    (hok : (Mongo.on_block store st block h).1 = .ok st') :
    ∃ qs ds, (Mongo.on_block store st block h).2.1 =
        .insertBlock (block.as_doc h) :: qs ++ [.insertManyTxs ds] ∧
      ∀ e ∈ qs, e.isWrite = false := by
  simp only [Mongo.on_block] at hok ⊢
  split at hok
  · simp at hok
  · split at hok
    · rename_i ds evs dgs heqp
      split at hok
      · simp at hok
      · refine ⟨evs, ds, rfl, fun e he => ?_⟩
        have := processTxs_events_readonly store
          (arr_to_hex_swapped block.header.hash) block.txs [] e
        rw [heqp] at this
        exact this he
    · simp at hok
    · simp at hok

theorem on_block_ok_of_okStore (store : FStore) (st : MongoState)
    (block : Block) (h : Nat)
    (h1 : ∀ d, store.insertOne d = .ok ())
    (h2 : ∀ ds, store.insertMany ds = .ok ())
    (h3 : ∀ hs, store.findOne hs = .ok none) :
    (Mongo.on_block store st block h).1 =
      .ok { st with tx_count := st.tx_count + block.tx_count } := by
  obtain ⟨ds, hds⟩ := processTxs_ok_of_findOne_none store
    (arr_to_hex_swapped block.header.hash) h3 block.txs []
  simp only [Mongo.on_block]
  split
  · rename_i heq; rw [h1] at heq; simp at heq
  · split
    · rename_i heqp
      split
      · rename_i heq; rw [h2] at heq; simp at heq
      · rfl
    · rename_i heqp; rw [heqp] at hds; simp at hds
    · rename_i heqp; rw [heqp] at hds; simp at hds

/-! ## Concrete fixtures for counterexamples and witnesses -/

/-- An input referencing the transaction whose hash renders as "01",
output 0 — a typical cross-block (or earlier-in-block) reference. -/
def inpRef01 : TxInput :=
  { outpoint := { txid := [1], index := 0 }, script_sig := [], seq_no := 0 }

/-- A coinbase input: all-zero 32-byte previous hash. -/
def coinbaseInp : TxInput :=
  { outpoint := { txid := List.replicate 32 0, index := 4294967295 },
    script_sig := [], seq_no := 0 }

/-- A stored transaction document with one output (value 500, address
"addrA"), as the callback itself would have written it. -/
def storedTxDoc : Document :=
  [("txHash", .str "01"),
   ("txOutputs", .arr [.doc [("value", .int64 500), ("address", .str "addrA")]])]

/-- A store holding `storedTxDoc` under hash "01"; all writes succeed. -/
def storeWith01 : FStore where
  insertOne := fun _ => .ok ()
  insertMany := fun _ => .ok ()
  findOne := fun h => if h = "01" then .ok (some storedTxDoc) else .ok none

/-- A store whose queries fail with a connectivity error. -/
def errStore : FStore where
  insertOne := fun _ => .ok ()
  insertMany := fun _ => .ok ()
  findOne := fun _ => .error "connection reset"

/-- A store whose single-document writes fail. -/
def insertFailStore : FStore where
  insertOne := fun _ => .error "write failed"
  insertMany := fun _ => .ok ()
  findOne := fun _ => .ok none

/-- A store whose bulk writes fail. -/
def bulkFailStore : FStore where
  insertOne := fun _ => .ok ()
  insertMany := fun _ => .error "bulk failed"
  findOne := fun _ => .ok none

/-- An output carrying value 500 with recognized address "addrA". -/
def outA : EvaluatedTxOut :=
  { script := { address := some "addrA", pattern := "Pay2PublicKeyHash" },
    out := { value := 500, script_pubkey := [2] } }

/-- An output whose script pattern was not recognized. -/
def outNoAddr : EvaluatedTxOut :=
  { script := { address := none, pattern := "NotRecognised" },
    out := { value := 7, script_pubkey := [3] } }

/-- Transaction "01" with the single output `outA` and no inputs. -/
def txA : HashedTx :=
  { hash := [1],
    value := { version := 1, locktime := 0, in_count := 0, out_count := 1,
               inputs := [], outputs := [outA] } }

/-- Transaction "01" with no outputs at all (so a reference to any of its
output indices misses the inner cache map). -/
def txEmptyA : HashedTx :=
  { hash := [1],
    value := { version := 1, locktime := 0, in_count := 0, out_count := 0,
               inputs := [], outputs := [] } }

/-- Transaction "02", whose sole input spends output 0 of hash "01". -/
def txB : HashedTx :=
  { hash := [2],
    value := { version := 1, locktime := 0, in_count := 1, out_count := 0,
               inputs := [inpRef01], outputs := [] } }

/-- A block header fixture. -/
def hdr0 : HashedHeader :=
  { hash := [9],
    value := { version := 1, prev_hash := [0], merkle_root := [0],
               timestamp := 0, bits := 0, nonce := 0 } }

/-- A block whose second transaction references output 0 of its first
transaction, which has no outputs: processing it makes exactly one store
query. -/
def blkC5 : Block :=
  { size := 100, header := hdr0, tx_count := 2, txs := [txEmptyA, txB] }

/-- A block with no transactions. -/
def blkEmpty : Block :=
  { size := 80, header := hdr0, tx_count := 0, txs := [] }

/-! ## Claim theorems -/

/-- C1 (code bug): at a concrete input whose referenced previous-output key
is absent from the Per-Block Resolution Cache while the persistent store
does hold the referenced transaction record (extraction at the referenced
index would yield value 500 and address "addrA"), the resolver issues no
store query at all and annotates the input with value 0 and the zero-hash
text: the store fallback is nested under the cache-hit branch and is
unreachable for a hash that is absent from the cache map, contradicting the
claimed cross-block resolution. -/
theorem crossBlock_input_not_resolved_via_store :
    (inpRef01.as_doc "spender" 0 storeWith01 []).events = [] ∧
    (inpRef01.as_doc "spender" 0 storeWith01 []).res =
      .ok (inpRef01.inputDoc "spender" 0 0 zeroHashStr) ∧
    alistGet (inpRef01.inputDoc "spender" 0 0 zeroHashStr) "value" =
      some (.int64 0) ∧
    alistGet (inpRef01.inputDoc "spender" 0 0 zeroHashStr) "address" =
      some (.str zeroHashStr) ∧
    storeWith01.findOne (arr_to_hex_swapped inpRef01.outpoint.txid) =
      .ok (some storedTxDoc) ∧
    extractPrevOutput storedTxDoc inpRef01.outpoint.index =
      some (500, "addrA") :=
  ⟨rfl, rfl, rfl, rfl, rfl, rfl⟩

/-- C2 (counterexample): at a concrete non-coinbase input found in neither
the cache nor the store, the emitted address is the 64-character zero-hash
text, not the empty string, and no diagnostic is surfaced (the hash is
absent from the cache map, so the store is not even consulted). -/
theorem unresolved_input_address_not_empty :
    (inpRef01.as_doc "spender" 0 okStore []).res =
      .ok (inpRef01.inputDoc "spender" 0 0 zeroHashStr) ∧
    alistGet (inpRef01.inputDoc "spender" 0 0 zeroHashStr) "address" =
      some (.str zeroHashStr) ∧
    (zeroHashStr == "") = false ∧
    (inpRef01.as_doc "spender" 0 okStore []).diags = [] ∧
    (inpRef01.as_doc "spender" 0 okStore []).events = [] :=
  ⟨rfl, rfl, rfl, rfl, rfl⟩

/-- C2 (amended): for every non-coinbase input whose referenced previous
output is in neither the cache nor the store, resolution emits value 0 and
address = the zero-hash text, and the run continues; the diagnostic naming
the spender and the reference (with one store query) is emitted exactly when
the referenced hash is present in the cache map with the index missing —
when the hash is absent from the cache map no store query and no diagnostic
happen. -/
theorem unresolved_input_defaults (inp : TxInput) (txid : String) (i : Int)
    (store : FStore) (tx_map : TxMap)
    (hs : arr_to_hex_swapped inp.outpoint.txid ≠ zeroHashStr)
    (hq : store.findOne (arr_to_hex_swapped inp.outpoint.txid) = .ok none)
    (hnc : ∀ om, alistGet tx_map (arr_to_hex_swapped inp.outpoint.txid) = some om →
      alistGet om (u32_as_i32 inp.outpoint.index) = none) :
    (inp.as_doc txid i store tx_map).res =
      .ok (inp.inputDoc txid i 0 zeroHashStr) ∧
    ((∃ om, alistGet tx_map (arr_to_hex_swapped inp.outpoint.txid) = some om) →
      (inp.as_doc txid i store tx_map).events =
          [.findOne (arr_to_hex_swapped inp.outpoint.txid)] ∧
        (inp.as_doc txid i store tx_map).diags =
          ["No Transaction for the Input found for TX: " ++ txid ++
           " with PrevOut: " ++ arr_to_hex_swapped inp.outpoint.txid]) ∧
    (alistGet tx_map (arr_to_hex_swapped inp.outpoint.txid) = none →
      (inp.as_doc txid i store tx_map).events = [] ∧
      (inp.as_doc txid i store tx_map).diags = []) := by
  cases h2 : alistGet tx_map (arr_to_hex_swapped inp.outpoint.txid) with
  | none =>
    refine ⟨?_, ?_, ?_⟩
    · simp [TxInput.as_doc, hs, h2]
    · rintro ⟨om, hom⟩
      cases hom
    · intro _
      constructor <;> simp [TxInput.as_doc, hs, h2]
  | some om =>
    have h3 := hnc om h2
    refine ⟨?_, ?_, ?_⟩
    · simp [TxInput.as_doc, hs, h2, h3, hq]
    · intro _
      constructor <;> simp [TxInput.as_doc, hs, h2, h3, hq]
    · intro hcon
      cases hcon

/-- C2 witness: the amended behaviour at the concrete cache-present,
index-missing, store-missing input. -/
theorem unresolved_input_defaults_witness :
    (inpRef01.as_doc "spender" 0 okStore [("01", [])]).res =
      .ok (inpRef01.inputDoc "spender" 0 0 zeroHashStr) ∧
    (inpRef01.as_doc "spender" 0 okStore [("01", [])]).diags =
      ["No Transaction for the Input found for TX: spender with PrevOut: 01"] :=
  ⟨(unresolved_input_defaults inpRef01 "spender" 0 okStore [("01", [])]
      (by decide) rfl
      (fun om h => by injection h with h2; rw [← h2]; rfl)).1,
   ((unresolved_input_defaults inpRef01 "spender" 0 okStore [("01", [])]
      (by decide) rfl
      (fun om h => by injection h with h2; rw [← h2]; rfl)).2.1 ⟨[], rfl⟩).2⟩

/-- C4: for every input whose previous-output hash renders as the coinbase
sentinel text, resolution emits value 0 and address = the sentinel text,
performs no store query and no diagnostic, and is entirely independent of
the cache and store contents. -/
theorem coinbase_sentinel_resolution (inp : TxInput) (txid : String) (i : Int)
    (store : FStore) (tx_map : TxMap)
    (hs : arr_to_hex_swapped inp.outpoint.txid = zeroHashStr) :
    (inp.as_doc txid i store tx_map).events = [] ∧
    (inp.as_doc txid i store tx_map).diags = [] ∧
    (inp.as_doc txid i store tx_map).res =
      .ok (inp.inputDoc txid i 0 zeroHashStr) ∧
    alistGet (inp.inputDoc txid i 0 zeroHashStr) "value" = some (.int64 0) ∧
    alistGet (inp.inputDoc txid i 0 zeroHashStr) "address" =
      some (.str zeroHashStr) ∧
    ∀ (store2 : FStore) (tx_map2 : TxMap),
      inp.as_doc txid i store2 tx_map2 = inp.as_doc txid i store tx_map := by
  refine ⟨?_, ?_, ?_, rfl, rfl, ?_⟩
  · simp [TxInput.as_doc, hs]
  · simp [TxInput.as_doc, hs]
  · simp [TxInput.as_doc, hs]
  · intro store2 tx_map2
    simp [TxInput.as_doc, hs]

/-- C4 witness: the concrete coinbase input. -/
theorem coinbase_sentinel_resolution_witness :
    arr_to_hex_swapped coinbaseInp.outpoint.txid = zeroHashStr ∧
    (coinbaseInp.as_doc "cb" 0 okStore []).events = [] ∧
    (coinbaseInp.as_doc "cb" 0 okStore []).res =
      .ok (coinbaseInp.inputDoc "cb" 0 0 zeroHashStr) :=
  ⟨by decide,
   (coinbase_sentinel_resolution coinbaseInp "cb" 0 okStore [] (by decide)).1,
   (coinbase_sentinel_resolution coinbaseInp "cb" 0 okStore [] (by decide)).2.2.1⟩

/-- C9: for every output and position, the (value, address) pair staged into
the Per-Block Resolution Cache by `as_map` equals the value and address
fields of the output document persisted by `as_doc`. -/
theorem cache_entry_matches_persisted_output (o : EvaluatedTxOut)
    (txid : String) (i : Int) :
    ∃ v a, o.as_map i = [(i, (v, a))] ∧
      alistGet (o.as_doc txid i).1 "value" = some (.int64 v) ∧
      alistGet (o.as_doc txid i).1 "address" = some (.str a) := by
  refine ⟨u64_as_i64 o.out.value, scriptAddr o, as_map_eq o i, ?_, ?_⟩ <;>
    cases h : o.script.address <;>
      simp [EvaluatedTxOut.as_doc, scriptAddr, alistGet, h]

/-- C3: in a block processed in native order, an input of the transaction at
position `j` that spends output `index` of the transaction at position
`i < j` (with pairwise-distinct transaction hashes, as in any well-formed
block) resolves against the Per-Block Resolution Cache the loop has built —
`buildTxMap (txs.take j)` — to exactly that output's value and address,
with zero store events and no diagnostic, for any store whatsoever. -/
theorem sameBlock_cache_resolution (txs : List HashedTx) (i j : Nat)
    (inp : TxInput) (txid : String) (idx : Int) (store : FStore)
    (o : EvaluatedTxOut)
    (hi : i < txs.length) (hij : i < j)
    (hnd : (txs.map (fun t => arr_to_hex_swapped t.hash)).Nodup)
    (hlen : (txs.get ⟨i, hi⟩).value.outputs.length ≤ 2 ^ 31)
    (hk : inp.outpoint.index < (txs.get ⟨i, hi⟩).value.outputs.length)
    (hh : arr_to_hex_swapped inp.outpoint.txid =
      arr_to_hex_swapped (txs.get ⟨i, hi⟩).hash)
    (hs : arr_to_hex_swapped (txs.get ⟨i, hi⟩).hash ≠ zeroHashStr)
    (ho : (txs.get ⟨i, hi⟩).value.outputs.get ⟨inp.outpoint.index, hk⟩ = o) :
    (inp.as_doc txid idx store (buildTxMap (txs.take j))).events = [] ∧
    (inp.as_doc txid idx store (buildTxMap (txs.take j))).diags = [] ∧
    (inp.as_doc txid idx store (buildTxMap (txs.take j))).res =
      .ok (inp.inputDoc txid idx (u64_as_i64 o.out.value) (scriptAddr o)) ∧
    alistGet (inp.inputDoc txid idx (u64_as_i64 o.out.value) (scriptAddr o))
        "value" = some (.int64 (u64_as_i64 o.out.value)) ∧
    alistGet (inp.inputDoc txid idx (u64_as_i64 o.out.value) (scriptAddr o))
        "address" = some (.str (scriptAddr o)) := by
  have hcache := tmGet_buildTxMap txs j i hi hij hnd
  have hidx31 : inp.outpoint.index < 2 ^ 31 := lt_of_lt_of_le hk hlen
  have hget : alistGet (txs.get ⟨i, hi⟩).as_map_tuple.2
      (u32_as_i32 inp.outpoint.index) =
      some (u64_as_i64 o.out.value, scriptAddr o) := by
    rw [u32_as_i32_of_lt hidx31]
    have h0 := alistGet_outMapFold_get (txs.get ⟨i, hi⟩).value.outputs 0 []
      inp.outpoint.index (by omega) hk
    rw [ho] at h0
    simp only [HashedTx.as_map_tuple]
    simpa using h0
  simp only [List.get_eq_getElem] at hcache hget hs hh
  refine ⟨?_, ?_, ?_, rfl, rfl⟩ <;>
    simp [TxInput.as_doc, hh, hs, hcache, hget]

/-- C3 witness: block [txA, txB], where txB's input spends txA's output 0
from the cache, with the store never consulted. -/
theorem sameBlock_cache_resolution_witness :
    (inpRef01.as_doc "b" 0 okStore (buildTxMap ([txA, txB].take 1))).events = [] ∧
    (inpRef01.as_doc "b" 0 okStore (buildTxMap ([txA, txB].take 1))).res =
      .ok (inpRef01.inputDoc "b" 0 (u64_as_i64 outA.out.value) (scriptAddr outA)) :=
  ⟨(sameBlock_cache_resolution [txA, txB] 0 1 inpRef01 "b" 0 okStore outA
      (by decide) (by decide) (by decide) (by decide) (by decide) rfl
      (by decide) rfl).1,
   (sameBlock_cache_resolution [txA, txB] 0 1 inpRef01 "b" 0 okStore outA
      (by decide) (by decide) (by decide) (by decide) (by decide) rfl
      (by decide) rfl).2.2.1⟩

/-- C5 (counterexample): on a concrete block needing one resolution query,
the event trace of `on_block` starts with the block-record write and only
then performs the transaction-processing read, so the claim that all
persistent-store writes happen after the transactions are processed fails. -/
theorem block_write_precedes_processing :
    noQueryAfterWrite ((Mongo.on_block okStore ⟨0, 0, 0⟩ blkC5 0).2.1) = false ∧
    ((Mongo.on_block okStore ⟨0, 0, 0⟩ blkC5 0).2.1).head? =
      some (.insertBlock (blkC5.as_doc 0)) ∧
    ((Mongo.on_block okStore ⟨0, 0, 0⟩ blkC5 0).2.1).map StoreEvent.isWrite =
      [true, false, true] :=
  ⟨rfl, rfl, rfl⟩

/-- C5 (amended): for every successful ingest, the block-record write is the
very first store operation — it precedes transaction processing — and the
bulk transaction write is the last; everything in between is a read-only
query. -/
theorem block_write_first_bulk_write_last (store : FStore) (st : MongoState)
    (block : Block) (h : Nat) (st' : MongoState)
    (hok : (Mongo.on_block store st block h).1 = .ok st') :
    ∃ qs ds, (Mongo.on_block store st block h).2.1 =
        .insertBlock (block.as_doc h) :: qs ++ [.insertManyTxs ds] ∧
      ∀ e ∈ qs, e.isWrite = false :=
  on_block_trace_shape store st block h st' hok

/-- C5 witness: the trace shape at the concrete block `blkC5`. -/
theorem block_write_first_bulk_write_last_witness :
    ∃ qs ds, (Mongo.on_block okStore ⟨0, 0, 0⟩ blkC5 0).2.1 =
        .insertBlock (blkC5.as_doc 0) :: qs ++ [.insertManyTxs ds] ∧
      ∀ e ∈ qs, e.isWrite = false :=
  block_write_first_bulk_write_last okStore ⟨0, 0, 0⟩ blkC5 0 ⟨0, 0, 2⟩ rfl

/-- C6 (counterexample): a failing store query during input resolution makes
`on_block` end in a panic (`unwrap` on the `find_one` result), not in an
error value returned to the caller. -/
theorem query_failure_panics_not_error :
    (Mongo.on_block errStore ⟨0, 0, 0⟩ blkC5 0).1 =
      .panicked "connection reset" := rfl

/-- C6 (amended): the liveness-probe failure at start and the write failures
mid-run are propagated to the caller as returned errors; a query failure
during input resolution also halts processing, but by a panic rather than a
returned error. -/
theorem connectivity_failure_semantics :
    (∀ (e : String) (st : MongoState) (h : Nat),
      Mongo.on_start (.error e) st h = .error e) ∧
    (∀ (store : FStore) (st : MongoState) (block : Block) (h : Nat) (e : String),
      store.insertOne (block.as_doc h) = .error e →
      (Mongo.on_block store st block h).1 = .err e) ∧
    (∀ (store : FStore) (st : MongoState) (block : Block) (h : Nat) (e : String)
        (ds : List Document) (evs : List StoreEvent) (dgs : List String),
      store.insertOne (block.as_doc h) = .ok () →
      processTxs store (arr_to_hex_swapped block.header.hash) block.txs [] =
        (.ok ds, evs, dgs) →
      store.insertMany ds = .error e →
      (Mongo.on_block store st block h).1 = .err e) ∧
    (∀ (inp : TxInput) (txid : String) (i : Int) (store : FStore)
        (tx_map : TxMap) (om : OutputMap) (e : String),
      arr_to_hex_swapped inp.outpoint.txid ≠ zeroHashStr →
      alistGet tx_map (arr_to_hex_swapped inp.outpoint.txid) = some om →
      alistGet om (u32_as_i32 inp.outpoint.index) = none →
      store.findOne (arr_to_hex_swapped inp.outpoint.txid) = .error e →
      (inp.as_doc txid i store tx_map).res = .panicked e) := by
  refine ⟨?_, ?_, ?_, ?_⟩
  · intro e st h; rfl
  · intro store st block h e hio
    simp [Mongo.on_block, hio]
  · intro store st block h e ds evs dgs hio hp hm
    simp [Mongo.on_block, hio, hp, hm]
  · intro inp txid i store tx_map om e hs hm hn hf
    simp [TxInput.as_doc, hs, hm, hn, hf]

/-- C6 witness: the four failure modes at concrete stores and inputs. -/
theorem connectivity_failure_semantics_witness :
    Mongo.on_start (.error "down") ⟨0, 0, 0⟩ 5 = .error "down" ∧
    (Mongo.on_block insertFailStore ⟨0, 0, 0⟩ blkEmpty 0).1 = .err "write failed" ∧
    (Mongo.on_block bulkFailStore ⟨0, 0, 0⟩ blkEmpty 0).1 = .err "bulk failed" ∧
    (inpRef01.as_doc "spender" 0 errStore [("01", [])]).res =
      .panicked "connection reset" :=
  ⟨connectivity_failure_semantics.1 "down" ⟨0, 0, 0⟩ 5,
   connectivity_failure_semantics.2.1 insertFailStore ⟨0, 0, 0⟩ blkEmpty 0
     "write failed" rfl,
   connectivity_failure_semantics.2.2.1 bulkFailStore ⟨0, 0, 0⟩ blkEmpty 0
     "bulk failed" [] [] [] rfl rfl rfl,
   connectivity_failure_semantics.2.2.2 inpRef01 "spender" 0 errStore
     [("01", [])] [] "connection reset" (by decide) rfl rfl rfl⟩

/-- C7: for every output whose script evaluator supplied no address, the
persisted output document's address field is the empty string and the
diagnostic naming the transaction and the script pattern is emitted; with a
store whose operations succeed, block ingestion still completes with an ok
outcome (the condition is non-fatal). -/
theorem unrecognized_script_empty_address (o : EvaluatedTxOut) (txid : String)
    (i : Int) (ha : o.script.address = none) :
    alistGet (o.as_doc txid i).1 "address" = some (.str "") ∧
    (o.as_doc txid i).2 =
      ["Unable to evaluate address for utxo in txid: " ++ txid ++
       " (" ++ o.script.pattern ++ ")"] ∧
    ∀ (store : FStore) (st : MongoState) (block : Block) (h : Nat),
      (∀ d, store.insertOne d = .ok ()) →
      (∀ ds, store.insertMany ds = .ok ()) →
      (∀ hs, store.findOne hs = .ok none) →
      ∃ st', (Mongo.on_block store st block h).1 = .ok st' := by
  refine ⟨?_, ?_, ?_⟩
  · simp [EvaluatedTxOut.as_doc, ha, alistGet]
  · simp [EvaluatedTxOut.as_doc, ha]
  · intro store st block h h1 h2 h3
    exact ⟨_, on_block_ok_of_okStore store st block h h1 h2 h3⟩

/-- C7 witness: the concrete unrecognized-script output `outNoAddr` inside
block ingestion with a working store. -/
theorem unrecognized_script_empty_address_witness :
    alistGet (outNoAddr.as_doc "t7" 0).1 "address" = some (.str "") ∧
    (outNoAddr.as_doc "t7" 0).2 =
      ["Unable to evaluate address for utxo in txid: t7 (NotRecognised)"] ∧
    ∃ st', (Mongo.on_block okStore ⟨0, 0, 0⟩ blkC5 0).1 = .ok st' :=
  ⟨(unrecognized_script_empty_address outNoAddr "t7" 0 rfl).1,
   (unrecognized_script_empty_address outNoAddr "t7" 0 rfl).2.1,
   (unrecognized_script_empty_address outNoAddr "t7" 0 rfl).2.2 okStore
     ⟨0, 0, 0⟩ blkC5 0 (fun _ => rfl) (fun _ => rfl) (fun _ => rfl)⟩

/-- C8: a successful ingest increases the transaction counter by exactly the
block's declared transaction count, and the summary emitted by
`on_complete` reports that accumulated total. -/
theorem tx_counter_accumulation (store : FStore) (st : MongoState)
    (block : Block) (h : Nat) (st' : MongoState)
    (hok : (Mongo.on_block store st block h).1 = .ok st') :
    st'.tx_count = st.tx_count + block.tx_count ∧
    ∀ h2, ((Mongo.on_complete st' h2).2).transactions =
      st.tx_count + block.tx_count := by
  have h1 := on_block_ok_inv store st block h st' hok
  subst h1
  exact ⟨rfl, fun h2 => rfl⟩

/-- C8 witness: ingesting `blkC5` (2 transactions) on top of a counter of 5
yields 7, and the summary reports 7. -/
theorem tx_counter_accumulation_witness :
    (⟨0, 0, 7⟩ : MongoState).tx_count = 5 + blkC5.tx_count ∧
    ((Mongo.on_complete ⟨0, 0, 7⟩ 9).2).transactions = 5 + blkC5.tx_count :=
  ⟨(tx_counter_accumulation okStore ⟨0, 0, 5⟩ blkC5 0 ⟨0, 0, 7⟩ rfl).1,
   (tx_counter_accumulation okStore ⟨0, 0, 5⟩ blkC5 0 ⟨0, 0, 7⟩ rfl).2 9⟩

theorem get_array_eq_some_iff (d : Document) (k : String) (arr : List Bson) :
    d.get_array k = some arr ↔ d.get k = some (.arr arr) := by
  unfold Document.get_array
  cases h : d.get k with
  | none => simp
  | some b => cases b <;> simp

theorem as_document_eq_some_iff (b : Bson) (d : Document) :
    b.as_document = some d ↔ b = .doc d := by
  cases b <;> simp [Bson.as_document]

theorem get_i64_eq_some_iff (d : Document) (k : String) (v : Int) :
    d.get_i64 k = some v ↔ d.get k = some (.int64 v) := by
  unfold Document.get_i64
  cases h : d.get k with
  | none => simp
  | some b => cases b <;> simp

theorem get_str_eq_some_iff (d : Document) (k : String) (s : String) :
    d.get_str k = some s ↔ d.get k = some (.str s) := by
  unfold Document.get_str
  cases h : d.get k with
  | none => simp
  | some b => cases b <;> simp

theorem extractPrevOutput_isSome_iff (prev : Document) (idx : Nat) :
    (extractPrevOutput prev idx).isSome ↔
      ∃ arr, prev.get "txOutputs" = some (.arr arr) ∧
        ∃ d, arr.get? idx = some (.doc d) ∧
          (∃ v, Document.get d "value" = some (.int64 v)) ∧
          (∃ a, Document.get d "address" = some (.str a)) := by
  unfold extractPrevOutput
  cases h1 : Document.get_array prev "txOutputs" with
  | none =>
    simp only [Option.isSome_none, Bool.false_eq_true, false_iff]
    rintro ⟨arr, harr, -⟩
    rw [← get_array_eq_some_iff, h1] at harr
    cases harr
  | some arr =>
    have harr := (get_array_eq_some_iff prev "txOutputs" arr).mp h1
    cases h2 : arr.get? idx with
    | none =>
      simp only [h2, Option.isSome_none, Bool.false_eq_true, false_iff]
      rintro ⟨arr2, harr2, d, hd, -⟩
      rw [harr] at harr2
      injection harr2 with harr2
      injection harr2 with harr2
      subst harr2
      rw [h2] at hd
      cases hd
    | some b =>
      cases hb : b.as_document with
      | none =>
        simp only [h2, hb, Option.isSome_none, Bool.false_eq_true, false_iff]
        rintro ⟨arr2, harr2, d, hd, -⟩
        rw [harr] at harr2
        injection harr2 with harr2
        injection harr2 with harr2
        subst harr2
        rw [h2] at hd
        injection hd with hd
        subst hd
        rw [(as_document_eq_some_iff (.doc d) d).mpr rfl] at hb
        cases hb
      | some d =>
        have hbd : b = .doc d := (as_document_eq_some_iff b d).mp hb
        subst hbd
        cases h3 : d.get_i64 "value" with
        | none =>
          simp only [h2, Bson.as_document, h3, Option.isSome_none,
            Bool.false_eq_true, false_iff]
          rintro ⟨arr2, harr2, d2, hd2, ⟨v, hv⟩, -⟩
          rw [harr] at harr2
          injection harr2 with harr2
          injection harr2 with harr2
          subst harr2
          rw [h2] at hd2
          injection hd2 with hd2
          injection hd2 with hd2
          subst hd2
          rw [← get_i64_eq_some_iff, h3] at hv
          cases hv
        | some v =>
          cases h4 : d.get_str "address" with
          | none =>
            simp only [h2, Bson.as_document, h3, h4, Option.isSome_none,
              Bool.false_eq_true, false_iff]
            rintro ⟨arr2, harr2, d2, hd2, -, ⟨a, ha⟩⟩
            rw [harr] at harr2
            injection harr2 with harr2
            injection harr2 with harr2
            subst harr2
            rw [h2] at hd2
            injection hd2 with hd2
            injection hd2 with hd2
            subst hd2
            rw [← get_str_eq_some_iff, h4] at ha
            cases ha
          | some a =>
            simp only [h2, Bson.as_document, h3, h4, Option.isSome_some,
              true_iff]
            exact ⟨arr, harr, d, h2,
              ⟨v, (get_i64_eq_some_iff d "value" v).mp h3⟩,
              ⟨a, (get_str_eq_some_iff d "address" a).mp h4⟩⟩

/-- A stored transaction document whose txOutputs field is not an array:
extraction from it panics. -/
def malformedTxDoc : Document :=
  [("txHash", .str "01"), ("txOutputs", .str "oops")]

/-- A store holding the malformed document under hash "01". -/
def storeWithBad01 : FStore where
  insertOne := fun _ => .ok ()
  insertMany := fun _ => .ok ()
  findOne := fun h => if h = "01" then .ok (some malformedTxDoc) else .ok none

/-- C10: the store-fallback extraction (direct indexing plus unchecked
unwraps) succeeds exactly when the stored document has a txOutputs array
longer than the referenced index whose element is a document with an `i64`
value field and a string address field; and on the fallback path the
resolver either annotates the input with the extracted pair or — outside
that precondition — panics, never defaulting to value 0 / empty address. -/
theorem store_fallback_extraction_totality :
    (∀ (prev : Document) (idx : Nat),
      (extractPrevOutput prev idx).isSome ↔
        ∃ arr, prev.get "txOutputs" = some (.arr arr) ∧
          ∃ d, arr.get? idx = some (.doc d) ∧
            (∃ v, Document.get d "value" = some (.int64 v)) ∧
            (∃ a, Document.get d "address" = some (.str a))) ∧
    (∀ (inp : TxInput) (txid : String) (i : Int) (store : FStore)
        (tx_map : TxMap) (om : OutputMap) (prev : Document),
      arr_to_hex_swapped inp.outpoint.txid ≠ zeroHashStr →
      alistGet tx_map (arr_to_hex_swapped inp.outpoint.txid) = some om →
      alistGet om (u32_as_i32 inp.outpoint.index) = none →
      store.findOne (arr_to_hex_swapped inp.outpoint.txid) = .ok (some prev) →
      (∀ v a, extractPrevOutput prev inp.outpoint.index = some (v, a) →
        (inp.as_doc txid i store tx_map).res =
          .ok (inp.inputDoc txid i v a)) ∧
      (extractPrevOutput prev inp.outpoint.index = none →
        (inp.as_doc txid i store tx_map).res =
          .panicked "unwrap failed on stored transaction document")) := by
  refine ⟨extractPrevOutput_isSome_iff, ?_⟩
  intro inp txid i store tx_map om prev hs hm hn hf
  constructor
  · intro v a hx
    simp [TxInput.as_doc, hs, hm, hn, hf, hx]
  · intro hx
    simp [TxInput.as_doc, hs, hm, hn, hf, hx]

/-- C10 witness: the successful extraction precondition holds at the
well-formed stored document, and the fallback at the malformed stored
document panics instead of defaulting. -/
theorem store_fallback_extraction_totality_witness :
    ((extractPrevOutput storedTxDoc 0).isSome ↔
      ∃ arr, storedTxDoc.get "txOutputs" = some (.arr arr) ∧
        ∃ d, arr.get? 0 = some (.doc d) ∧
          (∃ v, Document.get d "value" = some (.int64 v)) ∧
          (∃ a, Document.get d "address" = some (.str a))) ∧
    (inpRef01.as_doc "spender" 0 storeWithBad01 [("01", [])]).res =
      .panicked "unwrap failed on stored transaction document" :=
  ⟨store_fallback_extraction_totality.1 storedTxDoc 0,
   ((store_fallback_extraction_totality.2 inpRef01 "spender" 0 storeWithBad01
      [("01", [])] [] malformedTxDoc (by decide) rfl rfl rfl).2 rfl)⟩

end RustyBlockparser
